import Mathlib

/-!
# Verification of the `web3.main.Web3` facade

A shallow embedding of `src/web3/main.py` (the `Web3` facade class):

* the `keccak` / `solidityKeccak` hashing utilities,
* the module-composition loop of `Web3.__init__`,
* the `provider` / `middleware_onion` / `ens` / `pm` properties.

Python byte strings are `List Nat` (each entry < 256), Python `str` is
`String`, Python exceptions are the error side of `Except`.  The keccak-256
compression function itself lives in the external `eth_utils` package, so the
development is parameterised by an arbitrary `hash : List Nat → List Nat`;
every property proved here holds for the real compression function in
particular.  Helper functions of this repository that are imported by
`main.py` but whose sources are not part of this tree (`web3._utils.*`,
`ens.ENS`, `web3.manager.RequestManager`) are modelled from the spec, and say
so in their doc comments.
-/

/-- A Python value passed as the `primitive` positional argument of
`Web3.keccak`.  The source accepts `bytes`, `int` and `None`
(`isinstance(primitive, (bytes, int, type(None)))`); every other Python
object (str, float, list, ...) is the `other` case and is rejected. -/
inductive Primitive where
  | bytes (bs : List Nat)
  | int (n : Nat)
  | other
deriving DecidableEq, Repr

/-- Hex digit character for a value `< 16` (lower case, as `hex()` and
`eth_utils` produce). -/
def hexDigitChar (n : Nat) : Char :=
  Nat.digitChar n

/-- Numeric value of one hex character, `none` when the character is not a
hex digit. -/
def hexCharVal (c : Char) : Option Nat :=
  if '0' ≤ c ∧ c ≤ '9' then some (c.toNat - 48)
  else if 'a' ≤ c ∧ c ≤ 'f' then some (c.toNat - 87)
  else if 'A' ≤ c ∧ c ≤ 'F' then some (c.toNat - 55)
  else none

/-- Decode a list of hex characters, two characters per byte. -/
def hexPairsToBytes : List Char → Option (List Nat)
  | [] => some []
  | [_] => none
  | c1 :: c2 :: rest =>
    match hexCharVal c1, hexCharVal c2, hexPairsToBytes rest with
    | some hi, some lo, some bs => some ((16 * hi + lo) :: bs)
    | _, _, _ => none

/-- Model of `eth_utils.remove_0x_prefix`: strip a leading `0x` if present. -/
def remove_0x_prefix (s : String) : String :=
  match s.data with
  | '0' :: 'x' :: rest => ⟨rest⟩
  | _ => s

/-- Model of `eth_utils.add_0x_prefix`: ensure a leading `0x`. -/
def add_0x_prefix (s : String) : String :=
  match s.data with
  | '0' :: 'x' :: _ => s
  | _ => "0x" ++ s

/-- Decode a `0x`-optional hex string to bytes, left-padding odd-length input
with one `0` nibble (as `web3._utils.encoding.to_bytes` does). -/
def hexstrToBytes (s : String) : Option (List Nat) :=
  hexPairsToBytes
    (let cs := ( remove_0x_prefix s).data
     if cs.length % 2 = 1 then '0' :: cs else cs)

/-- UTF-8 encoding of one character (the standard 1-to-4 byte scheme,
mirroring Python's `str.encode('utf-8')`). -/
def utf8EncodeChar (c : Char) : List Nat :=
  let n := c.toNat
  if n < 128 then [n]
  else if n < 2048 then [192 + n / 64, 128 + n % 64]
  else if n < 65536 then [224 + n / 4096, 128 + n / 64 % 64, 128 + n % 64]
  else [240 + n / 262144, 128 + n / 4096 % 64, 128 + n / 64 % 64, 128 + n % 64]

/-- UTF-8 encoding of a string. -/
def utf8Bytes (s : String) : List Nat :=
  s.data.foldr (fun c acc => utf8EncodeChar c ++ acc) []

/-- Model of `eth_utils`' `to_hex` on a non-negative integer: minimal-length
lower-case hex with a `0x` prefix (`to_hex(0) = "0x0"`). -/
def to_hex_nat (n : Nat) : String :=
  "0x" ++ ⟨Nat.toDigits 16 n⟩

/-- Errors raised by the facade, in the spec's taxonomy (§7).  Python raises
`TypeError` for malformed hash-input selection, `ValueError` for the arity
mismatch, and a descriptive `AttributeError` for the disabled package-management
gate; each error carries the data its Python message interpolates. -/
inductive Web3Error where
  /-- Malformed input selection for `keccak` / `to_bytes`; carries the
  received combination `(primitive, text, hexstr)` that the Python message
  reports. -/
  | invalidInput (primitive : Option Primitive) (text hexstr : Option String)
  /-- `len(abi_types) != len(values)`; carries both lengths, which the
  message reports ("Got {0} types and {1} values"). -/
  | arityError (numTypes numValues : Nat)
  /-- ENS name resolution failure (spec §4.3 step 2). -/
  | resolutionError (name : String)
  /-- `hex_encode_abi_type` received a type/value pair it cannot encode. -/
  | encodingError
  /-- Duplicate or missing names during composition (spec §4.1; the source
  has no code path that raises it). -/
  | compositionError (name : String)
  /-- Access to the gated package-management namespace before activation;
  carries the descriptive message. -/
  | featureDisabled (msg : String)
deriving DecidableEq, Repr

/-- Modelled from the spec: `web3._utils.encoding.to_bytes` (imported by
`main.py`, source not in this tree).  It accepts exactly one of the three
mutually exclusive representations — raw bytes, an integer (converted via its
minimal hex form), a hex string, or text (UTF-8) — and converts it to a
canonical byte buffer; zero representations, more than one, or an unsupported
primitive shape fail with the descriptive invalid-input error naming the
received combination (spec §4.3). -/
def to_bytes (primitive : Option Primitive) (hexstr : Option String)
    (text : Option String) : Except Web3Error (List Nat) :=
  match primitive, hexstr, text with
  | some (.bytes bs), none, none => .ok bs
  | some (.int n), none, none =>
    match hexstrToBytes (to_hex_nat n) with
    | some bs => .ok bs
    | none => .error (.invalidInput primitive none none)
  | none, some hs, none =>
    match hexstrToBytes hs with
    | some bs => .ok bs
    | none => .error (.invalidInput none none (some hs))
  | none, none, some t => .ok (utf8Bytes t)
  | p, h, t => .error (.invalidInput p t h)

/-- An ABI type tag, the parsed form of strings such as `"uint8"`, `"bool"`,
`"bytes"`, `"string"`, `"address"` (spec §4.3 step 3). -/
inductive AbiType where
  | uint (bits : Nat)
  | int (bits : Nat)
  | bool
  | bytes
  | string
  | address
deriving DecidableEq, Repr

/-- A dynamic Python value supplied to `solidityKeccak`. -/
inductive Value where
  | nat (n : Nat)
  | intV (i : Int)
  | bool (b : Bool)
  | bytes (bs : List Nat)
  | str (s : String)
deriving DecidableEq, Repr

/-- Exactly `k` lower-case hex digits of `n`, little-endian (helper for the
fixed-width encoder). -/
def natHexDigitsLE : Nat → Nat → List Char
  | 0, _ => []
  | k + 1, n => hexDigitChar (n % 16) :: natHexDigitsLE k (n / 16)

/-- `n` rendered at exactly `bits / 4` hex digits, i.e. at exactly the
declared bit width (big-endian, truncating modulo `2 ^ bits`). -/
def natHexOfBits (n bits : Nat) : String :=
  ⟨(natHexDigitsLE (bits / 4) n).reverse⟩

/-- Lower-case hex rendering of a byte string, two digits per byte. -/
def bytesToHexStr (bs : List Nat) : String :=
  ⟨bs.foldr (fun b acc => hexDigitChar (b / 16 % 16) :: hexDigitChar (b % 16) :: acc) []⟩

/-- Whether a string value under an `address` type is a human-readable ENS
name needing resolution (model of `is_ens_name`: it contains a dot rather
than being hex). -/
def isEnsName (s : String) : Bool :=
  s.contains '.'

/-- An ENS resolver: maps a name to an address value or fails (spec §6,
`EnsResolver.resolve(name) -> address | ResolutionError`). -/
def Resolver : Type :=
  String → Except Web3Error Value

/-- Modelled from the spec: `web3._utils.normalizers.abi_ens_resolver`
(imported by `main.py`, source not in this tree).  Normalization pass over one
(type, value) pair, parameterised by the optional resolver: a human-readable
name in address position is substituted by its resolved address; all other
values pass through unchanged; with no resolver, no resolution is attempted
and name-like values pass through as literals (spec §4.3 steps 2 and the
bound/unbound rule). -/
def abi_ens_resolver (resolver : Option Resolver) (t : AbiType) (v : Value) :
    Except Web3Error Value :=
  match t, v, resolver with
  | .address, .str s, some r => if isEnsName s then r s else .ok v
  | _, _, _ => .ok v

/-- Modelled from the spec: `web3._utils.abi.map_abi_data` (imported by
`main.py`, source not in this tree), specialised to the single normalizer
`main.py` passes.  Applies the normalization pass to every (type, value) pair
in order; a resolution failure propagates. -/
def map_abi_data (resolver : Option Resolver) (abi_types : List AbiType)
    (values : List Value) : Except Web3Error (List Value) :=
  (abi_types.zip values).mapM (fun p => abi_ens_resolver resolver p.1 p.2)

/-- Modelled from the spec: `web3._utils.encoding.hex_encode_abi_type`
(imported by `main.py`, source not in this tree).  Returns the `0x`-prefixed
hex of the *packed* (non-padded) encoding of one value (spec §4.3 step 3):
fixed-width integers at exactly their declared bit width (signed ones in
two's complement), `bool` as the single byte `00`/`01`, dynamic `bytes` and
`string` with no length prefix, an address as its 20 literal bytes; a
type/value mismatch fails. -/
def hex_encode_abi_type (t : AbiType) (v : Value) : Except Web3Error String :=
  match t, v with
  | .uint bits, .nat n => .ok ("0x" ++ natHexOfBits n bits)
  | .int bits, .intV i => .ok ("0x" ++ natHexOfBits ((i % (2 ^ bits : Nat)).toNat) bits)
  | .int bits, .nat n => .ok ("0x" ++ natHexOfBits n bits)
  | .bool, .bool b => .ok ("0x" ++ natHexOfBits (if b then 1 else 0) 8)
  | .bytes, .bytes bs => .ok ("0x" ++ bytesToHexStr bs)
  | .string, .str s => .ok ("0x" ++ bytesToHexStr (utf8Bytes s))
  | .address, .str s =>
    match s.data with
    | '0' :: 'x' :: rest => if rest.length = 40 then .ok s else .error .encodingError
    | _ => .error .encodingError
  | _, _ => .error .encodingError

/-- Embedding of `Web3.keccak` (`main.py` lines 155-169), parameterised by the
external keccak-256 compression function `hash`.  If `primitive` is bytes, an
int or `None`, the input is converted with `to_bytes(primitive, hexstr=hexstr,
text=text)` and hashed; otherwise the call fails with the descriptive
`TypeError` naming the first argument and both keywords. -/
def keccak (hash : List Nat → List Nat) (primitive : Option Primitive)
    (text hexstr : Option String) : Except Web3Error (List Nat) :=
  match primitive with
  | some .other => .error (.invalidInput primitive text hexstr)
  | _ => (to_bytes primitive hexstr text).map hash

/-- Embedding of `Web3.solidityKeccak` (`main.py` lines 171-195),
parameterised by the external keccak-256 compression function `hash` and by
the optional resolver (`none` for a class-level call, where `w3 = None`; a
bound call passes the instance's configured resolver).  First the arity
check — its error carries both lengths, and it fires before the normalization
and encoding passes run — then normalization, then the packed per-pair hex
encodings are stripped of their `0x`, concatenated in input order, re-prefixed,
and hashed via `keccak(hexstr=...)`. -/
def solidityKeccak (hash : List Nat → List Nat) (resolver : Option Resolver)
    (abi_types : List AbiType) (values : List Value) :
    Except Web3Error (List Nat) :=
  if abi_types.length ≠ values.length then
    .error (.arityError abi_types.length values.length)
  else
    match map_abi_data resolver abi_types values with
    | .error e => .error e
    | .ok normalized_values =>
      match (abi_types.zip normalized_values).mapM
          (fun p => hex_encode_abi_type p.1 p.2) with
      | .error e => .error e
      | .ok pieces =>
        keccak hash none none
          (some ( add_0x_prefix (String.join (pieces.map remove_0x_prefix))))

/-- A module implementation that can attach itself to a host (spec §3,
`Capability`): the classes listed in `get_default_modules`, the
package-management module, or any other. -/
inductive Capability where
  | eth
  | net
  | version
  | txpool
  | miner
  | admin
  | parity
  | parityPersonal
  | geth
  | gethPersonal
  | testing
  | pmModule
  | other (n : Nat)
deriving DecidableEq, Repr

/-- One entry of a composition list (`main.py` lines 86-97 and 135-139):
a top-level attribute name, the module to attach there, and the submodules to
attach under it, in declared order. -/
structure ModuleSpec where
  name : String
  module : Capability
  submodules : List (String × Capability)
deriving DecidableEq, Repr

/-- The object `Module.attach` binds at `facade.<name>`: the module itself
plus its own attached sub-namespaces.  A fresh attachment has no
sub-namespaces. -/
structure AttachedNS where
  cap : Capability
  subs : List (String × Capability)
deriving DecidableEq, Repr

/-- The facade's dynamic attribute table for attached namespaces: an
association list from attribute name to attached object. -/
def Facade : Type :=
  List (String × AttachedNS)

instance : DecidableEq Facade :=
  inferInstanceAs (DecidableEq (List (String × AttachedNS)))

instance : Repr Facade :=
  inferInstanceAs (Repr (List (String × AttachedNS)))

/-- Python's `getattr(facade, name)` on the dynamic table. -/
def lookupNS : Facade → String → Option AttachedNS
  | [], _ => none
  | (k, v) :: rest, n => if k = n then some v else lookupNS rest n

/-- Python's `setattr(facade, name, v)`: overwrite an existing binding in
place, otherwise append a new one. -/
def setNS : Facade → String → AttachedNS → Facade
  | [], n, v => [(n, v)]
  | (k, w) :: rest, n, v =>
    if k = n then (k, v) :: rest else (k, w) :: setNS rest n v

/-- `setattr` on a sub-namespace table (submodule attachment). -/
def setSub : List (String × Capability) → String → Capability →
    List (String × Capability)
  | [], n, c => [(n, c)]
  | (k, w) :: rest, n, c =>
    if k = n then (k, c) :: rest else (k, w) :: setSub rest n c

/-- `submodule.attach(getattr(self, parent), subname)` (`main.py` line 139):
look the parent up and bind the submodule under it.  The parent always exists
here, having just been attached; a missing parent leaves the facade
unchanged. -/
def attachSubTo (f : Facade) (parent subname : String) (c : Capability) :
    Facade :=
  match lookupNS f parent with
  | some ns => setNS f parent ⟨ns.cap, setSub ns.subs subname c⟩
  | none => f

/-- One iteration of the composition loop (`main.py` lines 135-139):
`module['module'].attach(self, module['name'])` binds a fresh namespace —
silently overwriting any existing binding of that name — then each declared
submodule is attached under it in declared order. -/
def composeStep (f : Facade) (s : ModuleSpec) : Facade :=
  s.submodules.foldl (fun acc p => attachSubTo acc s.name p.1 p.2)
    (setNS f s.name ⟨s.module, []⟩)

/-- Embedding of the whole composition loop of `Web3.__init__`
(`main.py` lines 135-139), starting from a facade with no attached
namespaces.  The loop body has no failure branch, so the result is always
`.ok`: a name collision is silently overwritten, never detected. -/
def compose (specs : List ModuleSpec) : Except Web3Error Facade :=
  .ok (specs.foldl composeStep [])

/-- Embedding of `get_default_modules` (`main.py` lines 86-97). -/
def get_default_modules : List ModuleSpec :=
  [⟨"eth", .eth, []⟩,
   ⟨"net", .net, []⟩,
   ⟨"version", .version, []⟩,
   ⟨"txpool", .txpool, []⟩,
   ⟨"miner", .miner, []⟩,
   ⟨"admin", .admin, []⟩,
   ⟨"parity", .parity, [("personal", .parityPersonal)]⟩,
   ⟨"geth", .geth, [("personal", .gethPersonal)]⟩,
   ⟨"testing", .testing, []⟩]

/-- Modelled from the spec: `web3.manager.RequestManager` (imported by
`main.py`, source not in this tree).  Per the §6 contract it exposes a
read/write `provider` (transport) and the read-only ordered interceptor list
`middleware_onion`, as independent pieces of state; transports and
middlewares are abstract and identified by numbers here. -/
structure RequestManager where
  provider : Option Nat
  middleware_onion : List Nat
deriving DecidableEq, Repr

/-- The default ENS resolver or an explicitly supplied one.  `fromWeb3` is
the resolver `ENS.fromWeb3(self)` constructs, bound to the facade it is
called on (modelled from the spec: `ens.ENS` is imported by `main.py`, source
not in this tree). -/
inductive ENSObj where
  | fromWeb3
  | custom (n : Nat)
deriving DecidableEq, Repr

/-- What `self._ens` holds: the `empty` sentinel (`web3._utils.empty`, the
construction default) or an explicitly assigned value — possibly Python's
`None`, which is distinct from the sentinel. -/
inductive EnsStored where
  | empty
  | value (v : Option ENSObj)
deriving DecidableEq, Repr

/-- The mutable state of one `Web3` facade instance: the coordinator, the
attached module namespaces, the stored ENS field, and the package-management
attribute (`none` while `self._pm` is absent). -/
structure Web3State where
  manager : RequestManager
  modules : Facade
  _ens : EnsStored
  _pm : Option Capability
deriving DecidableEq, Repr

/-- Embedding of `Web3.__init__` (`main.py` lines 129-141): builds the
coordinator from the supplied provider and middlewares, composes the supplied
module list (or the default one when `None` is passed), and stores the `ens`
argument — whose default is the `empty` sentinel — via the `ens` setter.
`_pm` starts absent. -/
def Web3.init (provider : Option Nat) (middlewares : List Nat)
    (modules : Option (List ModuleSpec)) (ens : EnsStored) : Web3State :=
  { manager := ⟨provider, middlewares⟩,
    modules := (modules.getD get_default_modules).foldl composeStep [],
    _ens := ens,
    _pm := none }

/-- The `middleware_onion` property (`main.py` lines 143-145): forwards to
the coordinator. -/
def Web3State.middleware_onion (w : Web3State) : List Nat :=
  w.manager.middleware_onion

/-- The `provider` property getter (`main.py` lines 147-149): forwards to the
coordinator. -/
def Web3State.provider (w : Web3State) : Option Nat :=
  w.manager.provider

/-- The `provider` property setter (`main.py` lines 151-153): forwards the
write to the coordinator (`self.manager.provider = provider`). -/
def Web3State.setProvider (w : Web3State) (p : Option Nat) : Web3State :=
  { w with manager := { w.manager with provider := p } }

/-- The `ens` property getter (`main.py` lines 200-205): while `self._ens`
is the `empty` sentinel, a default resolver bound to the facade is
constructed (`ENS.fromWeb3(self)`); otherwise the stored value is returned
as-is. -/
def Web3State.ens (w : Web3State) : Option ENSObj :=
  match w._ens with
  | .empty => some .fromWeb3
  | .value v => v

/-- The `ens` property setter (`main.py` lines 207-209): stores the new
value. -/
def Web3State.set_ens (w : Web3State) (v : EnsStored) : Web3State :=
  { w with _ens := v }

/-- The message of the error raised by the `pm` property before
activation (`main.py` lines 216-220). -/
def pm_disabled_message : String :=
  "The Package Management feature is disabled by default until " ++
  "its API stabilizes. To use these features, please enable them by running " ++
  "`w3.enable_unstable_package_management_api()` and try again."

/-- The `pm` property (`main.py` lines 211-220): while `self._pm` is absent
the access fails with the descriptive feature-disabled error; after
activation it returns the bound package-management object. -/
def Web3State.pm (w : Web3State) : Except Web3Error Capability :=
  match w._pm with
  | some c => .ok c
  | none => .error (.featureDisabled pm_disabled_message)

/-- `enable_unstable_package_management_api` (`main.py` lines 222-224):
`PM.attach(self, '_pm')` binds the package-management module at `self._pm`. -/
def Web3State.enable_unstable_package_management_api (w : Web3State) :
    Web3State :=
  { w with _pm := some .pmModule }

/-- The digest-shape predicate for hash-call results: any successful result
is a 32-byte digest (errors carry no digest at all). -/
def isOkDigest32 : Except Web3Error (List Nat) → Prop
  | .ok d => d.length = 32
  | .error _ => True

theorem natHexDigitsLE_length (k n : Nat) : (natHexDigitsLE k n).length = k := by
  induction k generalizing n with
  | zero => rfl
  | succ k ih => simp [natHexDigitsLE, ih]

theorem natHexOfBits_length (n bits : Nat) :
    (natHexOfBits n bits).length = bits / 4 := by
  simp [natHexOfBits, String.length, natHexDigitsLE_length]

theorem keccak_hexstr_shape (hash : List Nat → List Nat)
    (hlen : ∀ bs, (hash bs).length = 32) (hs : String) :
    isOkDigest32 (keccak hash none none (some hs)) := by
  cases h : hexstrToBytes hs with
  | none => simp [keccak, to_bytes, h, Except.map, isOkDigest32]
  | some bs => simp [keccak, to_bytes, h, Except.map, isOkDigest32, hlen]

/-- C1: when `len(abi_types) != len(values)`, `solidityKeccak` fails with the
arity error carrying both lengths.  The resolver and the hash function are
universally quantified, so the failure is independent of any normalization or
encoding behaviour — in particular no digest is produced. -/
theorem solidityKeccak_arity_check (hash : List Nat → List Nat)
    (resolver : Option Resolver) (abi_types : List AbiType)
    (values : List Value) (h : abi_types.length ≠ values.length) :
    solidityKeccak hash resolver abi_types values =
      .error (.arityError abi_types.length values.length) := by
  simp [solidityKeccak, h]

/-- C1 witness: the arity check at one type and zero values. -/
theorem solidityKeccak_arity_check_witness :
    [AbiType.uint 8].length ≠ ([] : List Value).length ∧
      solidityKeccak (fun l => l) none [AbiType.uint 8] [] =
        .error (.arityError 1 0) :=
  ⟨by decide,
   solidityKeccak_arity_check (fun l => l) none [AbiType.uint 8] [] (by decide)⟩

/-- C3: `keccak` with zero representations, with both `text` and `hexstr`,
or with an unsupported `primitive` shape fails with the descriptive
invalid-input error carrying exactly the received combination of inputs. -/
theorem keccak_invalid_input (hash : List Nat → List Nat) (t h : String)
    (ot oh : Option String) :
    keccak hash none none none = .error (.invalidInput none none none) ∧
    keccak hash none (some t) (some h) =
      .error (.invalidInput none (some t) (some h)) ∧
    keccak hash (some .other) ot oh =
      .error (.invalidInput (some .other) ot oh) :=
  ⟨rfl, rfl, rfl⟩

/-- C4: the three representations of the bytes `b"abc"` — raw bytes, the
text `"abc"`, and the hex string `"0x616263"` — hash to the identical
digest. -/
theorem keccak_representation_agreement (hash : List Nat → List Nat) :
    keccak hash (some (.bytes [97, 98, 99])) none none = .ok (hash [97, 98, 99]) ∧
    keccak hash none (some "abc") none = .ok (hash [97, 98, 99]) ∧
    keccak hash none none (some "0x616263") = .ok (hash [97, 98, 99]) :=
  ⟨rfl, rfl, rfl⟩

/-- C5: `solidityKeccak(['uint8'], [5])` hashes exactly the single byte
`0x05`, `solidityKeccak(['bool'], [True])` exactly the single byte `0x01`,
and in general a fixed-width unsigned integer is encoded at exactly its
declared bit width: `bits / 4` hex digits, i.e. `bits / 8` bytes, with no
32-byte padding. -/
theorem solidityKeccak_packed_width (hash : List Nat → List Nat)
    (bits n : Nat) :
    solidityKeccak hash none [.uint 8] [.nat 5] = .ok (hash [5]) ∧
    solidityKeccak hash none [.bool] [.bool true] = .ok (hash [1]) ∧
    hex_encode_abi_type (.uint bits) (.nat n) =
      .ok ("0x" ++ natHexOfBits n bits) ∧
    (natHexOfBits n bits).length = bits / 4 :=
  ⟨rfl, rfl, rfl, natHexOfBits_length n bits⟩

/-- C10: `solidityKeccak([], [])` does not fail: the arity check passes, the
packed concatenation is empty, and the result is the digest of the empty
byte string. -/
theorem solidityKeccak_empty_lists (hash : List Nat → List Nat)
    (resolver : Option Resolver) :
    solidityKeccak hash resolver [] [] = .ok (hash []) :=
  rfl

/-- C7: setting the `provider` property forwards the write to the manager
and leaves the manager's `middleware_onion` unchanged. -/
theorem setProvider_frame (w : Web3State) (p : Option Nat) :
    (w.setProvider p).manager.provider = p ∧
    (w.setProvider p).provider = p ∧
    (w.setProvider p).middleware_onion = w.middleware_onion :=
  ⟨rfl, rfl, rfl⟩

/-- C8: on a freshly constructed facade, the `pm` property fails with the
descriptive feature-disabled error; after
`enable_unstable_package_management_api` (on any state) it resolves to the
bound package-management module without error. -/
theorem pm_feature_gate (provider : Option Nat) (middlewares : List Nat)
    (modules : Option (List ModuleSpec)) (ens : EnsStored) (w : Web3State) :
    (Web3.init provider middlewares modules ens).pm =
      .error (.featureDisabled pm_disabled_message) ∧
    (w.enable_unstable_package_management_api).pm = .ok .pmModule :=
  ⟨rfl, rfl⟩

/-- C9: while the stored field is the `empty` sentinel, reading `ens`
returns the lazily-constructed default resolver bound to the facade; after
an explicit assignment of `v` — including Python's `None` — reading `ens`
returns exactly `v`. -/
theorem ens_default_vs_explicit (w : Web3State) (v : Option ENSObj) :
    (w.set_ens (.value v)).ens = v ∧
    (w.set_ens .empty).ens = some .fromWeb3 :=
  ⟨rfl, rfl⟩

/-- C2 counterexample: composing two specs that both declare the top-level
name `"m"` does not fail — it returns `.ok`, with the second module silently
overwriting the first (which differs from it), contradicting the claimed
`CompositionError`. -/
theorem compose_duplicate_counterexample :
    compose [⟨"m", Capability.eth, []⟩, ⟨"m", Capability.net, []⟩] =
      .ok [("m", ⟨Capability.net, []⟩)] ∧
    (⟨Capability.net, []⟩ : AttachedNS) ≠ ⟨Capability.eth, []⟩ :=
  ⟨rfl, by decide⟩

theorem lookupNS_setNS_self (f : Facade) (n : String) (v : AttachedNS) :
    lookupNS (setNS f n v) n = some v := by
  induction f with
  | nil => simp [setNS, lookupNS]
  | cons kv rest ih =>
    obtain ⟨k, w⟩ := kv
    by_cases h : k = n
    · simp [setNS, lookupNS, h]
    · simp [setNS, lookupNS, h, ih]

theorem lookupNS_setNS_ne (f : Facade) (n k : String) (v : AttachedNS)
    (h : k ≠ n) : lookupNS (setNS f n v) k = lookupNS f k := by
  induction f with
  | nil => simp [setNS, lookupNS, Ne.symm h]
  | cons kv rest ih =>
    obtain ⟨k0, w⟩ := kv
    by_cases h0 : k0 = n
    · subst h0
      simp [setNS, lookupNS, Ne.symm h]
    · simp [setNS, lookupNS, h0, ih]

theorem setSub_fresh (l : List (String × Capability)) (k : String)
    (c : Capability) (h : k ∉ l.map Prod.fst) : setSub l k c = l ++ [(k, c)] := by
  induction l with
  | nil => simp [setSub]
  | cons kv rest ih =>
    obtain ⟨k0, c0⟩ := kv
    simp only [List.map_cons, List.mem_cons, not_or] at h
    simp [setSub, Ne.symm h.1, ih h.2]

theorem foldl_setSub_fresh (l : List (String × Capability)) :
    ∀ acc : List (String × Capability),
      (acc.map Prod.fst ++ l.map Prod.fst).Nodup →
      l.foldl (fun a p => setSub a p.1 p.2) acc = acc ++ l := by
  induction l with
  | nil => intro acc h; simp
  | cons kv rest ih =>
    intro acc h
    obtain ⟨k, c⟩ := kv
    have hmid : (k :: (acc.map Prod.fst ++ rest.map Prod.fst)).Nodup :=
      List.nodup_middle.mp (by simpa using h)
    have hk : k ∉ acc.map Prod.fst := fun hmem =>
      (List.nodup_cons.mp hmid).1 (List.mem_append.mpr (Or.inl hmem))
    rw [List.foldl_cons]
    show rest.foldl (fun a p => setSub a p.1 p.2) (setSub acc k c) = _
    rw [setSub_fresh acc k c hk, ih (acc ++ [(k, c)]) (by simpa using h)]
    simp

theorem lookupNS_subfold (l : List (String × Capability)) :
    ∀ (f : Facade) (parent : String) (c : Capability)
      (s0 : List (String × Capability)),
      lookupNS f parent = some ⟨c, s0⟩ →
      lookupNS (l.foldl (fun acc p => attachSubTo acc parent p.1 p.2) f) parent =
        some ⟨c, l.foldl (fun a p => setSub a p.1 p.2) s0⟩ ∧
      ∀ k, k ≠ parent →
        lookupNS (l.foldl (fun acc p => attachSubTo acc parent p.1 p.2) f) k =
          lookupNS f k := by
  induction l with
  | nil => exact fun f parent c s0 h => ⟨h, fun k _ => rfl⟩
  | cons kv rest ih =>
    intro f parent c s0 h
    obtain ⟨k0, c0⟩ := kv
    have hstep : attachSubTo f parent k0 c0 =
        setNS f parent ⟨c, setSub s0 k0 c0⟩ := by
      simp [attachSubTo, h]
    have hlook : lookupNS (attachSubTo f parent k0 c0) parent =
        some ⟨c, setSub s0 k0 c0⟩ := by
      rw [hstep]; exact lookupNS_setNS_self f parent _
    obtain ⟨h1, h2⟩ := ih (attachSubTo f parent k0 c0) parent c
      (setSub s0 k0 c0) hlook
    constructor
    · simpa using h1
    · intro k hk
      rw [List.foldl_cons]
      show lookupNS (rest.foldl _ (attachSubTo f parent k0 c0)) k = _
      rw [h2 k hk, hstep, lookupNS_setNS_ne f parent k _ hk]

theorem lookupNS_composeStep_self (f : Facade) (s : ModuleSpec)
    (hsub : (s.submodules.map Prod.fst).Nodup) :
    lookupNS (composeStep f s) s.name = some ⟨s.module, s.submodules⟩ := by
  have h0 : lookupNS (setNS f s.name ⟨s.module, []⟩) s.name =
      some ⟨s.module, []⟩ := lookupNS_setNS_self f s.name _
  have h1 := (lookupNS_subfold s.submodules _ s.name s.module [] h0).1
  rw [foldl_setSub_fresh s.submodules [] (by simpa using hsub)] at h1
  simpa [composeStep] using h1

theorem lookupNS_composeStep_ne (f : Facade) (s : ModuleSpec) (k : String)
    (hk : k ≠ s.name) : lookupNS (composeStep f s) k = lookupNS f k := by
  have h0 : lookupNS (setNS f s.name ⟨s.module, []⟩) s.name =
      some ⟨s.module, []⟩ := lookupNS_setNS_self f s.name _
  have h2 := (lookupNS_subfold s.submodules _ s.name s.module [] h0).2 k hk
  rw [composeStep] at *
  rw [h2, lookupNS_setNS_ne f s.name k _ hk]

theorem lookupNS_foldl_composeStep_notmem (specs : List ModuleSpec) :
    ∀ (f : Facade) (k : String), k ∉ specs.map ModuleSpec.name →
      lookupNS (specs.foldl composeStep f) k = lookupNS f k := by
  induction specs with
  | nil => exact fun f k _ => rfl
  | cons s rest ih =>
    intro f k hk
    simp only [List.map_cons, List.mem_cons, not_or] at hk
    rw [List.foldl_cons, ih _ k hk.2, lookupNS_composeStep_ne f s k hk.1]

theorem lookupNS_foldl_composeStep_mem (specs : List ModuleSpec) :
    ∀ f : Facade, (specs.map ModuleSpec.name).Nodup →
      (∀ s ∈ specs, (s.submodules.map Prod.fst).Nodup) →
      ∀ s ∈ specs, lookupNS (specs.foldl composeStep f) s.name =
        some ⟨s.module, s.submodules⟩ := by
  induction specs with
  | nil => exact fun f _ _ s hs => absurd hs (List.not_mem_nil s)
  | cons x rest ih =>
    intro f hnodup hsub s hs
    simp only [List.map_cons, List.nodup_cons] at hnodup
    have hnd := hnodup
    rw [List.foldl_cons]
    rcases List.mem_cons.mp hs with h | h
    · subst h
      rw [lookupNS_foldl_composeStep_notmem rest _ s.name hnd.1]
      exact lookupNS_composeStep_self f s (hsub s hs)
    · exact ih (composeStep f x) hnd.2
        (fun t ht => hsub t (List.mem_cons_of_mem x ht)) s h

/-- C2 (amended): composing a spec list whose top-level names are pairwise
distinct (and whose submodule names are distinct within each parent, the
spec's §3 invariant) succeeds and attaches every listed namespace — with its
declared submodules under it, in declared order — reachable by its declared
name; on a duplicate top-level name, however, the loop does *not* fail with a
composition error: it silently overwrites, the last duplicate winning (see
the counterexample). -/
theorem compose_unique_names_attach (specs : List ModuleSpec)
    (hnodup : (specs.map ModuleSpec.name).Nodup)
    (hsub : ∀ s ∈ specs, (s.submodules.map Prod.fst).Nodup)
    (s : ModuleSpec) (hs : s ∈ specs) :
    compose specs = .ok (specs.foldl composeStep []) ∧
    lookupNS (specs.foldl composeStep []) s.name =
      some ⟨s.module, s.submodules⟩ :=
  ⟨rfl, lookupNS_foldl_composeStep_mem specs [] hnodup hsub s hs⟩

/-- C2 witness: the default module list has unique names; composing it makes
`geth` reachable with its `personal` submodule attached under it. -/
theorem compose_unique_names_attach_witness :
    (get_default_modules.map ModuleSpec.name).Nodup ∧
    (⟨"geth", .geth, [("personal", .gethPersonal)]⟩ : ModuleSpec) ∈
      get_default_modules ∧
    compose get_default_modules = .ok (get_default_modules.foldl composeStep []) ∧
    lookupNS (get_default_modules.foldl composeStep []) "geth" =
      some ⟨.geth, [("personal", .gethPersonal)]⟩ := by
  refine ⟨by decide, by decide, ?_, ?_⟩
  · exact (compose_unique_names_attach get_default_modules (by decide) (by decide)
      ⟨"geth", .geth, [("personal", .gethPersonal)]⟩ (by decide)).1
  · exact (compose_unique_names_attach get_default_modules (by decide) (by decide)
      ⟨"geth", .geth, [("personal", .gethPersonal)]⟩ (by decide)).2

theorem solidityKeccak_shape (hash : List Nat → List Nat)
    (hlen : ∀ bs, (hash bs).length = 32) (resolver : Option Resolver)
    (abi_types : List AbiType) (values : List Value) :
    isOkDigest32 (solidityKeccak hash resolver abi_types values) := by
  rw [solidityKeccak]
  split
  · exact trivial
  · split
    · exact trivial
    · split
      · exact trivial
      · exact keccak_hexstr_shape hash hlen _

/-- C6: for equal-length inputs, `solidityKeccak` is deterministic — as a
pure function of its inputs (hash function, resolver configuration, types,
values) two invocations with identical inputs yield the identical result —
and any digest it produces is the 32-byte output of the hash function. -/
theorem solidityKeccak_deterministic (hash : List Nat → List Nat)
    (hlen : ∀ bs, (hash bs).length = 32) (resolver : Option Resolver)
    (abi_types : List AbiType) (values : List Value)
    (_h : abi_types.length = values.length) :
    solidityKeccak hash resolver abi_types values =
      solidityKeccak hash resolver abi_types values ∧
    isOkDigest32 (solidityKeccak hash resolver abi_types values) :=
  ⟨rfl, solidityKeccak_shape hash hlen resolver abi_types values⟩

/-- C6 witness: the determinism-and-shape theorem applied to a concrete
32-byte hash function on `['bool'] / [True]`. -/
theorem solidityKeccak_deterministic_witness :
    ([AbiType.bool].length = [Value.bool true].length) ∧
    (solidityKeccak (fun _ => List.replicate 32 0) none [AbiType.bool]
        [Value.bool true] =
      solidityKeccak (fun _ => List.replicate 32 0) none [AbiType.bool]
        [Value.bool true] ∧
    isOkDigest32 (solidityKeccak (fun _ => List.replicate 32 0) none
      [AbiType.bool] [Value.bool true])) :=
  ⟨rfl, solidityKeccak_deterministic (fun _ => List.replicate 32 0)
    (fun bs => by simp) none [AbiType.bool] [Value.bool true] rfl⟩
